import Mathlib

/-!
Verification of the smart-wallet transaction-orchestration core
(zkFold/smart-wallet-api) against its natural-language specification.

Shallow embedding conventions:
* JavaScript `bigint` is modelled as `Int` (arbitrary precision in both).
* JavaScript `number` arithmetic appearing in the affordability check of
  `Wallet.sendTo` is modelled faithfully as IEEE-754 binary64: every
  produced `number` is an exact rational rounded through `fl` (53-bit
  significand, round-to-nearest, ties-to-even; the exponent range is
  unbounded, which coincides with binary64 for the magnitudes reachable
  here — far from overflow and subnormals).
* Asynchronous poll loops (`Prover.prove`, `Wallet.awaitTxConfirmed`,
  the proof-availability wait in `Wallet.sendTo`) are modelled as
  recursion over a finite oracle trace of collaborator responses; the
  events they perform (HTTP polls, `delay(ms)` sleeps, log lines,
  dispatched DOM events) are captured in an explicit event list.
* External collaborators (the JSONbig parser, the OAuth token exchange)
  are passed in as function parameters where their behaviour matters.
-/

namespace SmartWallet

/-! ## `BigIntWrap` (src/Types.ts lines 8-50)

The class wraps a JavaScript `bigint`.  `add` returns a fresh wrapper,
`increase` mutates in place (modelled as returning the updated wrapper),
`toJSON` exposes the raw `bigint` so that JSONbig serialises it as an
arbitrary-precision integer literal. -/

structure BigIntWrap where
  int : Int
deriving DecidableEq, Repr

namespace BigIntWrap

def add (a b : BigIntWrap) : BigIntWrap := ⟨a.int + b.int⟩

/-- `increase(other)` does `this.int += other.int`; state-passing form. -/
def increase (a b : BigIntWrap) : BigIntWrap := ⟨a.int + b.int⟩

/-- `toJSON()` returns `this.int` (a `bigint`, never a `number`). -/
def toJSON (a : BigIntWrap) : Int := a.int

end BigIntWrap

/-- `new BigIntWrap(0)`: the zero accumulator used by `Wallet.getBalance`. -/
def BigIntWrap.zero : BigIntWrap := ⟨0⟩

/-! ## Wire format for numeric fields (src/JSON.ts, src/Types.ts line 47-49)

`serialize`/`deserialize` delegate to JSONbig configured with
`useNativeBigInt: true`: an integer field is written as the base-10
digit string of the `bigint` (via `BigIntWrap.toJSON`) and read back as
a native `bigint`.  We model the textual number carrier as a sign flag
plus the little-endian base-10 digit list of the magnitude. -/

structure WireNum where
  negative : Bool
  digits : List Nat
deriving DecidableEq, Repr

/-- Serialisation of one numeric field: the decimal rendering of the
`bigint` returned by `toJSON`. -/
def wireOfInt (i : Int) : WireNum :=
  ⟨decide (i < 0), Nat.digits 10 i.natAbs⟩

/-- Deserialisation of one numeric field: JSONbig with
`useNativeBigInt` parses the decimal literal back into a `bigint`. -/
def intOfWire (w : WireNum) : Int :=
  if w.negative then -((Nat.ofDigits 10 w.digits : ℕ) : Int)
  else ((Nat.ofDigits 10 w.digits : ℕ) : Int)

/-! ## Proof input and asset maps (src/Types.ts) -/

/-- `ProofInput` (src/Types.ts lines 251-256): all four fields are
`BigIntWrap`s. -/
structure ProofInput where
  piPubE : BigIntWrap
  piPubN : BigIntWrap
  piSignature : BigIntWrap
  piTokenName : BigIntWrap
deriving DecidableEq, Repr

/-- An asset map (`{ [key: string]: BigIntWrap }`): assoc list from asset
identifier to amount, insertion-ordered as in the JS object. -/
def AssetMap := List (String × BigIntWrap)
deriving DecidableEq

/-- JSON serialisation of a `ProofInput`: an object whose four fields
carry the decimal renderings of the wrapped bigints. -/
def serializeProofInput (pi : ProofInput) : List (String × WireNum) :=
  [ ("piPubE", wireOfInt pi.piPubE.toJSON)
  , ("piPubN", wireOfInt pi.piPubN.toJSON)
  , ("piSignature", wireOfInt pi.piSignature.toJSON)
  , ("piTokenName", wireOfInt pi.piTokenName.toJSON) ]

/-- Deserialisation of a `ProofInput` object: look the four fields up and
re-wrap the parsed bigints. -/
def deserializeProofInput (obj : List (String × WireNum)) : Option ProofInput :=
  match obj.lookup "piPubE", obj.lookup "piPubN",
        obj.lookup "piSignature", obj.lookup "piTokenName" with
  | some e, some n, some s, some t =>
      some ⟨⟨intOfWire e⟩, ⟨intOfWire n⟩, ⟨intOfWire s⟩, ⟨intOfWire t⟩⟩
  | _, _, _, _ => none

/-- JSON serialisation of an asset map: each amount is written through
`BigIntWrap.toJSON` as a decimal integer literal. -/
def serializeAssetMap (m : AssetMap) : List (String × WireNum) :=
  m.map (fun kv => (kv.1, wireOfInt kv.2.toJSON))

/-- Deserialisation of an asset map: parse each decimal literal back into
a `bigint` and wrap it (`new BigIntWrap(data[i].value[key])`). -/
def deserializeAssetMap (obj : List (String × WireNum)) : AssetMap :=
  obj.map (fun kv => (kv.1, ⟨intOfWire kv.2⟩))

/-- Helper for the accumulation property: folding `increase` starting
from any accumulator adds the operand sum. -/
theorem increase_foldl (a : BigIntWrap) (ops : List BigIntWrap) :
    (ops.foldl BigIntWrap.increase a).int = a.int + (ops.map BigIntWrap.int).sum := by
  induction ops generalizing a with
  | nil => simp
  | cons x xs ih =>
      simp only [List.foldl_cons, List.map_cons, List.sum_cons, ih, BigIntWrap.increase]
      ring

theorem intOfWire_wireOfInt (i : Int) : intOfWire (wireOfInt i) = i := by
  unfold intOfWire wireOfInt
  by_cases h : i < 0
  · rw [if_pos (by simpa using h), Nat.ofDigits_digits]
    omega
  · rw [if_neg (by simpa using h), Nat.ofDigits_digits]
    omega

/-- C10: for every finite sequence of `increase` operations applied to a
Value (`BigIntWrap`) starting from zero, the final value equals the exact
arithmetic sum of the operands, with no precision loss (the model carries
unbounded `Int`s exactly as the JS `bigint` does, so operands beyond
`2^63` are covered by the universal quantifier). -/
theorem c10_increase_sum (ops : List BigIntWrap) :
    (ops.foldl BigIntWrap.increase BigIntWrap.zero).int
      = (ops.map BigIntWrap.int).sum := by
  rw [increase_foldl]
  simp [BigIntWrap.zero]

/-- C9: serialising a `ProofInput` or an asset map to the JSON wire
format (decimal integer literals produced from the wrapped `bigint` via
`toJSON`, parsed back by JSONbig's `useNativeBigInt` mode) and
deserialising yields a value equal in every numeric field to the
original; the quantification over all `Int`s covers 256-bit values, and
the digit-list carrier never passes through a limited-precision type. -/
theorem c9_wire_roundtrip :
    (∀ pi : ProofInput, deserializeProofInput (serializeProofInput pi) = some pi)
    ∧ (∀ m : AssetMap, deserializeAssetMap (serializeAssetMap m) = m) := by
  constructor
  · intro pi
    simp [deserializeProofInput, serializeProofInput, List.lookup,
      intOfWire_wireOfInt, BigIntWrap.toJSON]
  · intro m
    unfold deserializeAssetMap serializeAssetMap
    rw [List.map_map]
    apply List.map_id'' -- entrywise identity
    intro kv
    simp [Function.comp, intOfWire_wireOfInt, BigIntWrap.toJSON]

/-! ## Proof payloads and the prover poll loop
(src/Service/Backend.ts second revision: class `Prover`, lines 287-489)

`Prover.prove` submits a proof request and then polls
`proofStatus` in a `while (true)` loop: a `Completed` response is parsed
by `parseProofBytes` and returned; any other JSON tag is a string, so
the loop sleeps `delay(30_000)` and retries; a thrown transport error is
caught, logged with `console.error`, and the loop retries (note: the
`catch` branch reaches the next iteration without executing the
`delay`). -/

/-- The JSONbig-parsed `Completed` payload (`unsafe` in
`parseProofBytes`): numeric evaluation points are native bigints,
commitments are strings. -/
structure RawProofBytes where
  a_xi_int : Int
  b_xi_int : Int
  c_xi_int : Int
  cmA_bytes : String
  cmB_bytes : String
  cmC_bytes : String
  cmF_bytes : String
  cmH1_bytes : String
  cmH2_bytes : String
  cmQhigh_bytes : String
  cmQlow_bytes : String
  cmQmid_bytes : String
  cmZ1_bytes : String
  cmZ2_bytes : String
  f_xi_int : Int
  h1_xi'_int : Int
  h2_xi_int : Int
  l1_xi : Int
  l_xi : List Int
  proof1_bytes : String
  proof2_bytes : String
  s1_xi_int : Int
  s2_xi_int : Int
  t_xi'_int : Int
  t_xi_int : Int
  z1_xi'_int : Int
  z2_xi'_int : Int
deriving DecidableEq, Repr

/-- `ProofBytes` (src/Types.ts lines 57-85): the same shape with every
numeric field wrapped in `BigIntWrap`. -/
structure ProofBytes where
  a_xi_int : BigIntWrap
  b_xi_int : BigIntWrap
  c_xi_int : BigIntWrap
  cmA_bytes : String
  cmB_bytes : String
  cmC_bytes : String
  cmF_bytes : String
  cmH1_bytes : String
  cmH2_bytes : String
  cmQhigh_bytes : String
  cmQlow_bytes : String
  cmQmid_bytes : String
  cmZ1_bytes : String
  cmZ2_bytes : String
  f_xi_int : BigIntWrap
  h1_xi'_int : BigIntWrap
  h2_xi_int : BigIntWrap
  l1_xi : BigIntWrap
  l_xi : List BigIntWrap
  proof1_bytes : String
  proof2_bytes : String
  s1_xi_int : BigIntWrap
  s2_xi_int : BigIntWrap
  t_xi'_int : BigIntWrap
  t_xi_int : BigIntWrap
  z1_xi'_int : BigIntWrap
  z2_xi'_int : BigIntWrap
deriving DecidableEq, Repr

/-- `Prover.parseProofBytes` (src/Service/Backend.ts lines 439-487):
each numeric field is re-wrapped with `new BigIntWrap(...)` and the
`l_xi` array is mapped elementwise; byte strings pass through. -/
def parseProofBytes (u : RawProofBytes) : ProofBytes :=
  { a_xi_int := ⟨u.a_xi_int⟩
  , b_xi_int := ⟨u.b_xi_int⟩
  , c_xi_int := ⟨u.c_xi_int⟩
  , cmA_bytes := u.cmA_bytes
  , cmB_bytes := u.cmB_bytes
  , cmC_bytes := u.cmC_bytes
  , cmF_bytes := u.cmF_bytes
  , cmH1_bytes := u.cmH1_bytes
  , cmH2_bytes := u.cmH2_bytes
  , cmQhigh_bytes := u.cmQhigh_bytes
  , cmQlow_bytes := u.cmQlow_bytes
  , cmQmid_bytes := u.cmQmid_bytes
  , cmZ1_bytes := u.cmZ1_bytes
  , cmZ2_bytes := u.cmZ2_bytes
  , f_xi_int := ⟨u.f_xi_int⟩
  , h1_xi'_int := ⟨u.h1_xi'_int⟩
  , h2_xi_int := ⟨u.h2_xi_int⟩
  , l1_xi := ⟨u.l1_xi⟩
  , l_xi := u.l_xi.map (⟨·⟩)
  , proof1_bytes := u.proof1_bytes
  , proof2_bytes := u.proof2_bytes
  , s1_xi_int := ⟨u.s1_xi_int⟩
  , s2_xi_int := ⟨u.s2_xi_int⟩
  , t_xi'_int := ⟨u.t_xi'_int⟩
  , t_xi_int := ⟨u.t_xi_int⟩
  , z1_xi'_int := ⟨u.z1_xi'_int⟩
  , z2_xi'_int := ⟨u.z2_xi'_int⟩ }

/-- All numeric evaluation points of a parsed proof, as raw bigints. -/
def numericFields (p : ProofBytes) : List Int :=
  [ p.a_xi_int.int, p.b_xi_int.int, p.c_xi_int.int, p.f_xi_int.int
  , p.h1_xi'_int.int, p.h2_xi_int.int, p.l1_xi.int ]
  ++ p.l_xi.map BigIntWrap.int
  ++ [ p.s1_xi_int.int, p.s2_xi_int.int, p.t_xi'_int.int, p.t_xi_int.int
     , p.z1_xi'_int.int, p.z2_xi'_int.int ]

/-- The same numeric fields of the raw `Completed` payload. -/
def rawNumericFields (u : RawProofBytes) : List Int :=
  [ u.a_xi_int, u.b_xi_int, u.c_xi_int, u.f_xi_int
  , u.h1_xi'_int, u.h2_xi_int, u.l1_xi ]
  ++ u.l_xi
  ++ [ u.s1_xi_int, u.s2_xi_int, u.t_xi'_int, u.t_xi_int
     , u.z1_xi'_int, u.z2_xi'_int ]

/-- Observable events of one run of the `Prover.prove` polling loop. -/
inductive PollEvt where
  | poll
  | wait (ms : Nat)
  | logError
deriving DecidableEq, Repr

/-- Outcome of one `proofStatus` call, as seen inside the `try` block:
the HTTP/parse layer raises, or `parseProofStatus` returns the tag
string (non-`Completed`), or it returns the parsed-payload object. -/
inductive PollOutcome where
  | raises
  | pendingTag (tag : String)
  | completed (p : RawProofBytes)

/-- `Prover.prove`'s `while (true)` loop over a finite trace of
`proofStatus` outcomes.  Returned value: the parsed proof if a
`Completed` response was reached, `none` if the oracle trace ran out
(the real loop would still be polling), plus the event list.  A
`pendingTag` response is followed by `delay(30_000)`; a raised error is
logged and the loop re-enters immediately (the `catch` block skips the
`delay`). -/
def proveLoop : List PollOutcome → Option ProofBytes × List PollEvt
  | [] => (none, [])
  | .raises :: rest =>
      let r := proveLoop rest
      (r.1, .poll :: .logError :: r.2)
  | .pendingTag _ :: rest =>
      let r := proveLoop rest
      (r.1, .poll :: .wait 30000 :: r.2)
  | .completed p :: _ => (some (parseProofBytes p), [.poll])

theorem parseProofBytes_numericFields (u : RawProofBytes) :
    numericFields (parseProofBytes u) = rawNumericFields u := by
  have hcomp : BigIntWrap.int ∘ (fun x : Int => (⟨x⟩ : BigIntWrap)) = id := rfl
  simp [numericFields, rawNumericFields, parseProofBytes, List.map_map, hcomp]

/-- C4: for a status-response sequence of `n` `Pending` answers followed
by `Completed(proof)`, the loop issues exactly `n + 1` status polls,
each pending poll followed by the fixed 30-second wait, and returns the
parsed proof whose every numeric field equals the payload's, at full
precision. -/
theorem c4_prove_polls (n : Nat) (raw : RawProofBytes) :
    proveLoop (List.replicate n (.pendingTag "Pending") ++ [.completed raw])
      = (some (parseProofBytes raw),
         (List.replicate n [PollEvt.poll, PollEvt.wait 30000]).flatten ++ [PollEvt.poll])
    ∧ ((List.replicate n [PollEvt.poll, PollEvt.wait 30000]).flatten
        ++ [PollEvt.poll]).count PollEvt.poll = n + 1
    ∧ numericFields (parseProofBytes raw) = rawNumericFields raw := by
  refine ⟨?_, ?_, parseProofBytes_numericFields raw⟩
  · induction n with
    | zero => rfl
    | succ m ih =>
        simp only [List.replicate_succ, List.cons_append, proveLoop,
          List.flatten_cons, List.append_eq, ih, List.nil_append]
  · induction n with
    | zero => rfl
    | succ m ih =>
        simp only [List.replicate_succ, List.flatten_cons, List.cons_append,
          List.nil_append, List.count_cons] at ih ⊢
        simp_all

/-- Fixture payload used for concrete poll-loop runs. -/
def sampleRaw : RawProofBytes :=
  { a_xi_int := 1, b_xi_int := 2, c_xi_int := 3
  , cmA_bytes := "a", cmB_bytes := "b", cmC_bytes := "c", cmF_bytes := "f"
  , cmH1_bytes := "h1", cmH2_bytes := "h2", cmQhigh_bytes := "qh"
  , cmQlow_bytes := "ql", cmQmid_bytes := "qm", cmZ1_bytes := "z1"
  , cmZ2_bytes := "z2"
  , f_xi_int := 4, h1_xi'_int := 5, h2_xi_int := 6, l1_xi := 7
  , l_xi := [8, 9]
  , proof1_bytes := "p1", proof2_bytes := "p2"
  , s1_xi_int := 10, s2_xi_int := 11, t_xi'_int := 12, t_xi_int := 13
  , z1_xi'_int := 14, z2_xi'_int := 15 }

/-- C5 counterexample: with a transport error on the first poll and a
`Completed` answer on the second, the loop's event trace is
`[poll, logError, poll]` and contains no 30-second wait at all: the
retry after the error is immediate, not "on its fixed interval", so the
claim as stated is false on the code. -/
theorem c5_counterexample_no_interval :
    proveLoop [.raises, .completed sampleRaw]
      = (some (parseProofBytes sampleRaw), [.poll, .logError, .poll])
    ∧ PollEvt.wait 30000 ∉ (proveLoop [.raises, .completed sampleRaw]).2 := by
  exact ⟨rfl, by decide⟩

/-- C5 amended: any prefix of transient poll errors is logged, the loop
retries immediately after each (without the fixed 30-second wait), and
no such error is ever surfaced as a hard failure: the returned outcome
is exactly the outcome of the remaining polls. -/
theorem c5_transient_errors_swallowed (k : Nat) (rest : List PollOutcome) :
    proveLoop (List.replicate k .raises ++ rest)
      = ((proveLoop rest).1,
         (List.replicate k [PollEvt.poll, PollEvt.logError]).flatten ++ (proveLoop rest).2) := by
  induction k with
  | zero => rfl
  | succ m ih =>
      simp only [List.replicate_succ, List.cons_append, proveLoop,
        List.flatten_cons, List.append_eq, ih, List.nil_append, List.append_assoc]

/-! ## Wallet state and `logout` (src/Wallet.ts revision in part_012)

In-memory identity state: `jwt?`, `tokenSKey?`, `userId?`,
`activated`, `proof`.  Persisted state: the `Session` collaborator keeps
the OAuth correlation token in `sessionStorage`; the `Storage`
collaborator keeps wallet records (`{jwt, tokenSKey}` keyed by address)
in `localStorage`.  `logout` (lines 64-76) resets the five in-memory
fields, calls `sessionStorage.clear()`, and dispatches `logged_out`; it
performs no `localStorage` operation. -/

/-- `WalletInitialiser`: the persisted wallet record
(`{ jwt, tokenSKey }`). -/
structure WalletInitialiser where
  jwt : String
  tokenSKey : String
deriving DecidableEq, Repr

structure WalletState where
  jwt : Option String
  tokenSKey : Option String
  userId : Option String
  activated : Bool
  proof : Option ProofBytes
  sessionStore : List (String × String)
  localStore : List (String × WalletInitialiser)
deriving DecidableEq, Repr

/-- Lifecycle events dispatched by the wallet. -/
inductive WalletEvt where
  | logged_out
  | initialized
deriving DecidableEq, Repr

/-- `Wallet.logout`: a straight-line sequence of total assignments plus
`sessionStorage.clear()`; it cannot throw, which the model reflects by
being a plain function. -/
def logout (s : WalletState) : WalletState × List WalletEvt :=
  ({ s with jwt := none, tokenSKey := none, userId := none,
            activated := false, proof := none, sessionStore := [] },
   [.logged_out])

/-- A logged-in, activated state whose wallet record was persisted by a
previous `sendTransaction` (`storage.saveWallet`). -/
def samplePersistedState : WalletState :=
  { jwt := some "h.p.s", tokenSKey := some "00ff", userId := some "user@example.com"
  , activated := true, proof := some (parseProofBytes sampleRaw)
  , sessionStore := [("zkfold-smart-wallet", "oauth-state-blob")]
  , localStore := [("addr_test1xyz", ⟨"h.p.s", "00ff"⟩)] }

/-- C2 counterexample: `logout` does not clear the persisted wallet
record in `localStorage` — starting from a state with one persisted
wallet, the record survives logout, so "all persisted session and
storage state is cleared" is false on the code. -/
theorem c2_counterexample_localStorage_kept :
    ((logout samplePersistedState).1).localStore
      = [("addr_test1xyz", ⟨"h.p.s", "00ff"⟩)]
    ∧ ((logout samplePersistedState).1).localStore ≠ [] := by
  exact ⟨rfl, by decide⟩

/-- C2 amended: `logout` is total (a plain function of the state),
clears every in-memory identity field and the whole `sessionStorage`
namespace, leaves the persisted `localStorage` wallet records untouched,
and is idempotent: a second `logout` yields the same state as the
first. -/
theorem c2_logout_total_idempotent (s : WalletState) :
    (logout s).1.jwt = none
    ∧ (logout s).1.tokenSKey = none
    ∧ (logout s).1.userId = none
    ∧ (logout s).1.activated = false
    ∧ (logout s).1.proof = none
    ∧ (logout s).1.sessionStore = []
    ∧ (logout s).1.localStore = s.localStore
    ∧ (logout ((logout s).1)).1 = (logout s).1
    ∧ (logout s).2 = [.logged_out] := by
  refine ⟨rfl, rfl, rfl, rfl, rfl, rfl, rfl, rfl, rfl⟩

/-! ## Transaction confirmation watcher (part_012 lines 356-390)

`checkTransactionStatus` wraps the whole address lookup in `try/catch`:
a raised lookup error becomes `{outcome: "failure", reason: error}`; a
successful lookup scans the UTXO list for a reference whose
`transaction_id` equals the submitted id and yields
`{outcome: "success", data: txId}` or `{outcome: "pending"}`.
`awaitTxConfirmed` loops: success dispatches `transaction_confirmed` and
returns, failure dispatches `transaction_failed` and returns, pending
sleeps `delay(30_000)` and polls again. -/

structure Reference where
  transaction_id : String
  output_index : Nat
deriving DecidableEq, Repr

structure UTxO where
  ref : Reference
  address : String
  value : List (String × BigIntWrap)
deriving DecidableEq, Repr

/-- Result of one `backend.addressUtxo` call: the UTXO list, or the
raised error. -/
inductive LookupOutcome where
  | ok (utxos : List UTxO)
  | err (e : String)

/-- The three outcomes of `checkTransactionStatus`. -/
inductive TxStatus where
  | success (data : String)
  | pending
  | failure (reason : String)
deriving DecidableEq, Repr

def checkTransactionStatus (txId : String) (lk : LookupOutcome) : TxStatus :=
  match lk with
  | .err e => .failure e
  | .ok utxos =>
      if utxos.any (fun u => u.ref.transaction_id == txId) then .success txId
      else .pending

/-- Events observable from the watcher loop: the dispatched
`transaction_confirmed` / `transaction_failed` events and the fixed
30-second sleeps. -/
inductive WatchEvt where
  | confirmed (data : String)
  | failed (reason : String)
  | wait (ms : Nat)
deriving DecidableEq, Repr

/-- `awaitTxConfirmed`'s `while (true)` loop over a finite trace of
address-lookup outcomes (empty trace = the loop is still polling). -/
def awaitTxConfirmed (txId : String) : List LookupOutcome → List WatchEvt
  | [] => []
  | lk :: rest =>
      match checkTransactionStatus txId lk with
      | .success d => [.confirmed d]
      | .failure e => [.failed e]
      | .pending => .wait 30000 :: awaitTxConfirmed txId rest

/-- C7: an iteration of the confirmation watcher yields success exactly
when the fetched UTXO list contains the submitted transaction id (then
the confirmed event is emitted and polling stops), yields failure
exactly when the address lookup raised (then the failed event carrying
that error is emitted and polling stops), and otherwise emits no
terminal event and polls again after the fixed 30-second wait. -/
theorem c7_confirmation_watcher (txId : String) (utxos : List UTxO)
    (e : String) (rest : List LookupOutcome) :
    (checkTransactionStatus txId (.ok utxos) = .success txId
       ↔ ∃ u ∈ utxos, u.ref.transaction_id = txId)
    ∧ checkTransactionStatus txId (.err e) = .failure e
    ∧ ((∃ u ∈ utxos, u.ref.transaction_id = txId) →
        awaitTxConfirmed txId (.ok utxos :: rest) = [.confirmed txId])
    ∧ awaitTxConfirmed txId (.err e :: rest) = [.failed e]
    ∧ ((∀ u ∈ utxos, u.ref.transaction_id ≠ txId) →
        awaitTxConfirmed txId (.ok utxos :: rest)
          = .wait 30000 :: awaitTxConfirmed txId rest) := by
  have hmem : (utxos.any (fun u => u.ref.transaction_id == txId)) = true
      ↔ ∃ u ∈ utxos, u.ref.transaction_id = txId := by
    simp [List.any_eq_true]
  by_cases hc : ∃ u ∈ utxos, u.ref.transaction_id = txId
  · have hb : (utxos.any fun u => u.ref.transaction_id == txId) = true := hmem.mpr hc
    refine ⟨?_, rfl, ?_, rfl, ?_⟩
    · exact iff_of_true (by simp [checkTransactionStatus, hb]) hc
    · intro _
      simp only [awaitTxConfirmed, checkTransactionStatus, hb, if_true]
    · intro h
      obtain ⟨u, hu, hid⟩ := hc
      exact absurd hid (h u hu)
  · have hb : (utxos.any fun u => u.ref.transaction_id == txId) = false := by
      have := fun hh => hc (hmem.mp hh)
      simpa [Bool.not_eq_true] using this
    refine ⟨?_, rfl, ?_, rfl, ?_⟩
    · exact iff_of_false (by simp [checkTransactionStatus, hb]) hc
    · intro h; exact absurd h hc
    · intro _
      simp only [awaitTxConfirmed, checkTransactionStatus, hb, Bool.false_eq_true, if_false]

/-- C7 witness: the spec scenario — the first poll finds no matching
UTXO, the second raises; the watcher emits one 30-second wait then the
failed event carrying the error, and stops. -/
theorem c7_witness : awaitTxConfirmed "tx1" [.ok [], .err "boom"]
    = [.wait 30000, .failed "boom"] := by
  have h1 := (c7_confirmation_watcher "tx1" [] "boom" [.err "boom"]).2.2.2.2
    (by intro u hu; cases hu)
  have h2 := (c7_confirmation_watcher "tx1" [] "boom" []).2.2.2.1
  rw [h1, h2]

/-! ## OAuth callback validation (part_012 lines 78-137)

`oauthCallback` reads the persisted correlation token
(`session.getState()`), removes it, compares it with the `state` URL
parameter using `!==` (so two `null`s compare equal), then checks the
`code` parameter for JS-falsiness, exchanges it for a JWT, and finally
resolves the address / storage branch.  The model takes the external
token exchange as a function (`none` models a falsy response) and tracks
the external calls performed. -/

/-- External calls `oauthCallback` can perform after validation. -/
inductive ExtCall where
  | getJWTFromCode (code : String)
  | walletAddress (email : String)
  | proverProve
deriving DecidableEq, Repr

/-- JS falsiness of a `string | null` value: `null` or the empty
string. -/
def isFalsy : Option String → Bool
  | none => true
  | some s => s == ""

def csrfErr : String := "State mismatch. Possible CSRF attack"

def missingCodeErr : String := "Missing authorization code"

def noJwtErr : String := "Failed to get JWT from authorization code"

/-- Outcome of `oauthCallback`: the thrown error (if any), the external
calls performed, and the identity fields as left by the run. -/
structure CallbackResult where
  err : Option String
  calls : List ExtCall
  jwt : Option String
  keySet : Bool
  userId : Option String
  activated : Bool
deriving DecidableEq, Repr

/-- `Wallet.oauthCallback` on a wallet that starts logged out.
`savedState` is what `session.getState()` returns, `stateParam` and
`codeParam` are the URL parameters, `exchange` is
`googleApi.getJWTFromCode`, `userIdOf` is `googleApi.getUserId`, and
`existing` is `storage.getWallet(address)`. -/
def oauthCallback (savedState stateParam codeParam : Option String)
    (exchange : String → Option String) (userIdOf : String → String)
    (existing : Option WalletInitialiser) : CallbackResult :=
  if stateParam ≠ savedState then
    ⟨some csrfErr, [], none, false, none, false⟩
  else match codeParam with
  | none => ⟨some missingCodeErr, [], none, false, none, false⟩
  | some c =>
    if c = "" then ⟨some missingCodeErr, [], none, false, none, false⟩
    else match exchange c with
    | none => ⟨some noJwtErr, [.getJWTFromCode c], none, false, none, false⟩
    | some jwt =>
      if jwt = "" then ⟨some noJwtErr, [.getJWTFromCode c], none, false, none, false⟩
      else
        let uid := userIdOf jwt
        match existing with
        | some w =>
            ⟨none, [.getJWTFromCode c, .walletAddress uid],
             some w.jwt, true, some uid, true⟩
        | none =>
            ⟨none, [.getJWTFromCode c, .walletAddress uid, .proverProve],
             some jwt, true, some uid, false⟩

/-- C3 counterexample: with the persisted correlation token missing the
callback does not abort with a distinct error — if a `state` parameter
is present it raises the very same CSRF-mismatch error as an ordinary
mismatch, and if the `state` parameter is also absent (`null !== null`
is false) validation passes and the flow proceeds to the backend with no
abort at all. -/
theorem c3_counterexample_missing_token :
    (oauthCallback none (some "attacker") (some "code0")
        (fun _ => some "jwt0") (fun _ => "user@example.com") none).err
      = (oauthCallback (some "expected") (some "other") (some "code0")
          (fun _ => some "jwt0") (fun _ => "user@example.com") none).err
    ∧ (oauthCallback none none (some "code0")
        (fun _ => some "jwt0") (fun _ => "user@example.com") none).err = none := by
  exact ⟨rfl, rfl⟩

/-- C3 amended: a `state` parameter different from the persisted
correlation token — including the case where the token is missing but a
`state` parameter is present — aborts with the CSRF-mismatch error
before any external call; a missing (or empty) authorization code and a
token exchange yielding no token abort with their own errors, the three
error messages are pairwise distinct, and every failure leaves the
wallet logged out (jwt, signing key and user id unset); the
CSRF-mismatch and missing-code failures perform no external calls, and
the failed exchange performs only the exchange call. -/
theorem c3_callback_failure_semantics (savedState stateParam codeParam : Option String)
    (exchange : String → Option String) (userIdOf : String → String)
    (existing : Option WalletInitialiser) :
    (stateParam ≠ savedState →
      oauthCallback savedState stateParam codeParam exchange userIdOf existing
        = ⟨some csrfErr, [], none, false, none, false⟩)
    ∧ (stateParam = savedState → isFalsy codeParam = true →
      oauthCallback savedState stateParam codeParam exchange userIdOf existing
        = ⟨some missingCodeErr, [], none, false, none, false⟩)
    ∧ (∀ c, stateParam = savedState → codeParam = some c → c ≠ "" →
        isFalsy (exchange c) = true →
      oauthCallback savedState stateParam codeParam exchange userIdOf existing
        = ⟨some noJwtErr, [.getJWTFromCode c], none, false, none, false⟩)
    ∧ (csrfErr ≠ missingCodeErr ∧ csrfErr ≠ noJwtErr ∧ missingCodeErr ≠ noJwtErr) := by
  refine ⟨?_, ?_, ?_, by decide⟩
  · intro h
    simp only [oauthCallback, if_pos h]
  · intro hst hcode
    rw [oauthCallback.eq_def, if_neg (by simp [hst])]
    match codeParam with
    | none => rfl
    | some c =>
        simp only [isFalsy, beq_iff_eq] at hcode
        subst hcode
        simp
  · intro c hst hcp hcne hex
    rw [oauthCallback.eq_def, if_neg (by simp [hst])]
    subst hcp
    dsimp only
    rw [if_neg hcne]
    cases hx : exchange c with
    | none => rfl
    | some j =>
        rw [hx] at hex
        simp only [isFalsy, beq_iff_eq] at hex
        subst hex
        simp

/-- C3 witness: a concrete failed token exchange (the collaborator
returns no token) aborts with the dedicated exchange error after
performing only the exchange call. -/
theorem c3_witness :
    oauthCallback (some "s0") (some "s0") (some "authcode")
        (fun _ => none) (fun _ => "user@example.com") none
      = ⟨some noJwtErr, [.getJWTFromCode "authcode"], none, false, none, false⟩ :=
  (c3_callback_failure_semantics (some "s0") (some "s0") (some "authcode")
      (fun _ => none) (fun _ => "user@example.com") none).2.2.1
    "authcode" rfl rfl (by decide) rfl

/-! ## Spending path of `Wallet.sendTo` (part_012 lines 392-454)

Before building anything the method computes
`requiredAda = amount/1_000_000 + (activated ? 2 : 8)` and throws the
insufficient-funds error when `balance.lovelace/1_000_000 < requiredAda`
— this happens right after the `getBalance` backend call and before any
transaction-build endpoint.  On the fresh path it busy-waits
`while (!this.hasProof()) await delay(5_000)` and then calls
`backend.activateAndSendFunds(header + '.' + payload, pubkeyHex, proof,
outs)`, where `header`/`payload` are the base64url-decoded first two
dot-segments of the JWT (`atob` after `-`/`_` replacement).

The check runs in JavaScript doubles: `Number(bigint)` conversions, the
two divisions by `1_000_000`, and the addition of the reserve each round
to the nearest binary64 value, modelled below by `fl`. -/

/-- Index of a character in the standard base64 alphabet. -/
def b64Index (c : Char) : Option Nat :=
  if 'A' ≤ c ∧ c ≤ 'Z' then some (c.toNat - 65)
  else if 'a' ≤ c ∧ c ≤ 'z' then some (c.toNat - 71)
  else if '0' ≤ c ∧ c ≤ '9' then some (c.toNat + 4)
  else if c = '+' then some 62
  else if c = '/' then some 63
  else none

/-- Regroup base64 sextets into bytes (a trailing group of two or three
sextets decodes to one or two bytes, as `atob` does for unpadded
input). -/
def bytesOfSextets : List Nat → List Nat
  | a :: b :: c :: d :: rest =>
      (a * 4 + b / 16) :: ((b % 16) * 16 + c / 4) :: ((c % 4) * 64 + d)
        :: bytesOfSextets rest
  | [a, b] => [a * 4 + b / 16]
  | [a, b, c] => [a * 4 + b / 16, (b % 16) * 16 + c / 4]
  | _ => []

/-- The browser `atob` on the alphabet subset the code feeds it. -/
def atob (s : String) : String :=
  String.mk ((bytesOfSextets (s.data.filterMap b64Index)).map Char.ofNat)

/-- The base64url-to-base64 conversion done inline in `sendTo`: every
dash becomes a plus and every underscore becomes a slash. -/
def b64urlToB64 (s : String) : String :=
  String.mk (s.data.map (fun c => if c = '-' then '+' else if c = '_' then '/' else c))

/-- The `header + '.' + payload` argument of `activateAndSendFunds`:
the decoded first two dot-segments of the JWT, i.e. the stripped
signature-less identity token. -/
def strippedJwt (jwt : String) : String :=
  let parts := jwt.splitOn "."
  atob (b64urlToB64 (parts.getD 0 "")) ++ "." ++ atob (b64urlToB64 (parts.getD 1 ""))

/-- `Output` as sent to the build endpoints. -/
structure Output where
  address : String
  value : List (String × BigIntWrap)
deriving DecidableEq, Repr

/-- Backend calls and sleeps performed by `sendTo`. -/
inductive SendCall where
  | getBalanceCall
  | sendFundsCall (userId : String) (outs : List Output) (pkh : String)
  | activateAndSendFundsCall (jwt : String) (pkh : String) (proof : ProofBytes)
      (outs : List Output)
  | submitTxCall
  | waitMs (ms : Nat)
deriving DecidableEq, Repr

/-- The user-facing insufficient-funds message (the code appends the
computed required amount; the constant prefix identifies the error). -/
def insufficientAdaErr : String := "Insufficient ADA to perform this transaction."

/-- The `while (!this.hasProof()) await delay(5_000)` loop, indexed by
the number of iterations until the pre-computed proof arrives. -/
def proofWait : Nat → List SendCall
  | 0 => []
  | n + 1 => .waitMs 5000 :: proofWait n

/-- Round a rational to the nearest integer, ties to even (the IEEE
default rounding of a scaled significand). -/
def roundEven (y : ℚ) : ℤ :=
  if y - ⌊y⌋ < 1/2 then ⌊y⌋
  else if 1/2 < y - ⌊y⌋ then ⌊y⌋ + 1
  else if 2 ∣ ⌊y⌋ then ⌊y⌋ else ⌊y⌋ + 1

/-- Round an exact rational to the nearest IEEE-754 binary64 value:
scale into `[2^52, 2^53)`, round the significand to an integer (ties to
even), and scale back.  The exponent range is unbounded, which agrees
with binary64 away from overflow and subnormals — the regime of every
`number` in the affordability check. -/
def fl (x : ℚ) : ℚ :=
  if x = 0 then 0
  else ((roundEven (x * (2:ℚ) ^ (-(Int.log 2 |x| - 52))) : ℤ) : ℚ)
        * (2:ℚ) ^ (Int.log 2 |x| - 52)

theorem roundEven_intCast (n : ℤ) : roundEven (n : ℚ) = n := by
  unfold roundEven
  rw [Int.floor_intCast, if_pos (by norm_num)]

theorem roundEven_err (y : ℚ) : |(roundEven y : ℚ) - y| ≤ 1 / 2 := by
  have h0 := Int.floor_le y
  have h1 := Int.lt_floor_add_one y
  unfold roundEven
  by_cases hlt : y - (⌊y⌋ : ℚ) < 1/2
  · rw [if_pos hlt, abs_le]
    constructor <;> linarith
  · rw [if_neg hlt]
    by_cases hgt : (1:ℚ)/2 < y - (⌊y⌋ : ℚ)
    · rw [if_pos hgt, abs_le]
      push_cast
      constructor <;> linarith
    · rw [if_neg hgt]
      split <;> (rw [abs_le]; push_cast; constructor <;> linarith)

/-- Helper to evaluate `roundEven` concretely when the fraction is below
one half. -/
theorem roundEven_eq_of_lt {y : ℚ} {f : ℤ} (hf : ⌊y⌋ = f) (hfr : y - f < 1/2) :
    roundEven y = f := by
  unfold roundEven
  rw [hf, if_pos hfr]

/-- Helper to evaluate `roundEven` concretely when the fraction is above
one half. -/
theorem roundEven_eq_of_gt {y : ℚ} {f : ℤ} (hf : ⌊y⌋ = f) (hfr : 1/2 < y - f) :
    roundEven y = f + 1 := by
  unfold roundEven
  rw [hf, if_neg (by linarith), if_pos hfr]

theorem log_eq_of_zpow_bounds {x : ℚ} {L : ℤ} (hx : 0 < x)
    (hlow : (2:ℚ) ^ L ≤ x) (hhigh : x < (2:ℚ) ^ (L + 1)) :
    Int.log 2 x = L := by
  have h1 : (2:ℚ) ^ (Int.log 2 x) ≤ x := Int.zpow_log_le_self (by norm_num) hx
  have h2 : x < (2:ℚ) ^ (Int.log 2 x + 1) := Int.lt_zpow_succ_log_self (by norm_num) x
  by_contra hne
  rcases lt_or_gt_of_ne hne with hl | hg
  · have : (2:ℚ) ^ (Int.log 2 x + 1) ≤ (2:ℚ) ^ L :=
      zpow_le_zpow_right₀ (by norm_num) (by omega)
    linarith
  · have : (2:ℚ) ^ (L + 1) ≤ (2:ℚ) ^ (Int.log 2 x) :=
      zpow_le_zpow_right₀ (by norm_num) (by omega)
    linarith

/-- Characterisation of `fl` from explicit binade bounds. -/
theorem fl_eq_of {x : ℚ} (e : ℤ) (hx : x ≠ 0)
    (hlow : (2:ℚ) ^ (e + 52) ≤ |x|) (hhigh : |x| < (2:ℚ) ^ (e + 53)) :
    fl x = ((roundEven (x * (2:ℚ) ^ (-e)) : ℤ) : ℚ) * (2:ℚ) ^ e := by
  have hlog : Int.log 2 |x| = e + 52 :=
    log_eq_of_zpow_bounds (abs_pos.mpr hx) hlow (by
      have h : e + 52 + 1 = e + 53 := by ring
      rw [h]
      exact hhigh)
  unfold fl
  rw [if_neg hx, hlog]
  have h : e + 52 - 52 = e := by ring
  rw [h]

/-- Concrete evaluation of `fl` via an explicit binade and significand. -/
theorem fl_eq_round {x : ℚ} (e : ℤ) (n : ℤ) (hx : x ≠ 0)
    (hlow : (2:ℚ) ^ (e + 52) ≤ |x|) (hhigh : |x| < (2:ℚ) ^ (e + 53))
    (hn : roundEven (x * (2:ℚ) ^ (-e)) = n) :
    fl x = (n : ℚ) * (2:ℚ) ^ e := by
  rw [fl_eq_of e hx hlow hhigh, hn]

/-- `fl` is exact on values whose scaled significand is an integer
(in particular on integers of at most 53 bits). -/
theorem fl_eq_intCast {x : ℚ} (e : ℤ) (n : ℤ) (hx : x ≠ 0)
    (hlow : (2:ℚ) ^ (e + 52) ≤ |x|) (hhigh : |x| < (2:ℚ) ^ (e + 53))
    (hn : x * (2:ℚ) ^ (-e) = (n : ℚ)) :
    fl x = x := by
  rw [fl_eq_of e hx hlow hhigh, hn, roundEven_intCast, ← hn, mul_assoc,
    ← zpow_add₀ (by norm_num : (2:ℚ) ≠ 0), neg_add_cancel, zpow_zero, mul_one]

/-- Half-ulp relative error bound of binary64 rounding: the distance
from `x` to `fl x` is at most `|x| · 2^(-53)`. -/
theorem fl_err (x : ℚ) : |fl x - x| ≤ |x| / 9007199254740992 := by
  by_cases hx : x = 0
  · simp [fl, hx]
  · have habs : 0 < |x| := abs_pos.mpr hx
    have hlow : (2:ℚ) ^ ((Int.log 2 |x| - 52) + 52) ≤ |x| := by
      have h : Int.log 2 |x| - 52 + 52 = Int.log 2 |x| := by ring
      rw [h]
      exact Int.zpow_log_le_self (by norm_num) habs
    have hhigh : |x| < (2:ℚ) ^ ((Int.log 2 |x| - 52) + 53) := by
      have h : Int.log 2 |x| - 52 + 53 = Int.log 2 |x| + 1 := by ring
      rw [h]
      exact Int.lt_zpow_succ_log_self (by norm_num) |x|
    have hfl := fl_eq_of (Int.log 2 |x| - 52) hx hlow hhigh
    have h2e : (0:ℚ) < (2:ℚ) ^ (Int.log 2 |x| - 52) :=
      zpow_pos (by norm_num) _
    have hxy : x = (x * (2:ℚ) ^ (-(Int.log 2 |x| - 52)))
        * (2:ℚ) ^ (Int.log 2 |x| - 52) := by
      rw [mul_assoc, ← zpow_add₀ (by norm_num : (2:ℚ) ≠ 0), neg_add_cancel,
        zpow_zero, mul_one]
    have hfactor : ((roundEven (x * (2:ℚ) ^ (-(Int.log 2 |x| - 52))) : ℤ) : ℚ)
          * (2:ℚ) ^ (Int.log 2 |x| - 52) - x
        = (((roundEven (x * (2:ℚ) ^ (-(Int.log 2 |x| - 52))) : ℤ) : ℚ)
            - x * (2:ℚ) ^ (-(Int.log 2 |x| - 52)))
          * (2:ℚ) ^ (Int.log 2 |x| - 52) := by
      rw [sub_mul, mul_assoc, ← zpow_add₀ (by norm_num : (2:ℚ) ≠ 0),
        neg_add_cancel, zpow_zero, mul_one]
    have hstep : |fl x - x|
        = |((roundEven (x * (2:ℚ) ^ (-(Int.log 2 |x| - 52))) : ℤ) : ℚ)
            - x * (2:ℚ) ^ (-(Int.log 2 |x| - 52))|
          * (2:ℚ) ^ (Int.log 2 |x| - 52) := by
      rw [hfl, hfactor, abs_mul, abs_of_pos h2e]
    have hrnd := roundEven_err (x * (2:ℚ) ^ (-(Int.log 2 |x| - 52)))
    have hge : (4503599627370496:ℚ) * (2:ℚ) ^ (Int.log 2 |x| - 52) ≤ |x| := by
      calc (4503599627370496:ℚ) * (2:ℚ) ^ (Int.log 2 |x| - 52)
          = (2:ℚ) ^ (52:ℤ) * (2:ℚ) ^ (Int.log 2 |x| - 52) := by norm_num
        _ = (2:ℚ) ^ ((Int.log 2 |x| - 52) + 52) := by
            rw [← zpow_add₀ (by norm_num : (2:ℚ) ≠ 0), add_comm]
        _ ≤ |x| := hlow
    rw [hstep]
    calc |((roundEven (x * (2:ℚ) ^ (-(Int.log 2 |x| - 52))) : ℤ) : ℚ)
            - x * (2:ℚ) ^ (-(Int.log 2 |x| - 52))|
          * (2:ℚ) ^ (Int.log 2 |x| - 52)
        ≤ (1/2) * (2:ℚ) ^ (Int.log 2 |x| - 52) :=
          mul_le_mul_of_nonneg_right hrnd h2e.le
      _ ≤ |x| / 9007199254740992 := by linarith

/-- `Wallet.sendTo` for a single-asset lovelace recipient (as built by
`sendTransaction`), over a Bech32 recipient address.  `balanceLovelace`
is the exact balance the backend reports (its JSON number arrives as the
double `fl balanceLovelace`); `amount` is the exact `bigint` amount, and
`toNumber()` yields the double `fl amount`; each division by `1_000_000`
and the addition of the reserve round again; `arrival` is the number of
5-second wait cycles until the proof is available; the returned pair is
the call/sleep trace and the thrown error, if any. -/
def sendTo (activated : Bool) (balanceLovelace amount : Int) (arrival : Nat)
    (jwt pkh userId recipientAddr : String) (proof : ProofBytes) :
    List SendCall × Option String :=
  let requiredAda : ℚ :=
    fl (fl (fl (amount : ℚ) / 1000000) + (if activated then 2 else 8))
  if fl (fl (balanceLovelace : ℚ) / 1000000) < requiredAda then
    ([SendCall.getBalanceCall], some insufficientAdaErr)
  else
    let outs : List Output := [⟨recipientAddr, [("lovelace", ⟨amount⟩)]⟩]
    if activated then
      ([SendCall.getBalanceCall, .sendFundsCall userId outs pkh, .submitTxCall], none)
    else
      (SendCall.getBalanceCall ::
        (proofWait arrival
          ++ [.activateAndSendFundsCall (strippedJwt jwt) pkh proof outs,
              .submitTxCall]), none)

/-- Transaction-build endpoint calls (`sendFunds` /
`activateAndSendFunds`). -/
def isBuildCall : SendCall → Bool
  | .sendFundsCall _ _ _ => true
  | .activateAndSendFundsCall _ _ _ _ => true
  | _ => false

def sampleProof : ProofBytes := parseProofBytes sampleRaw

theorem proofWait_replicate (n : Nat) :
    proofWait n = List.replicate n (SendCall.waitMs 5000) := by
  induction n with
  | zero => rfl
  | succ m ih => simp [proofWait, ih, List.replicate_succ]

/-- C1 counterexample: a fresh wallet with balance `B = 9 000 000`
lovelace and a spend request of `B - reserveFresh - 1 = 999 999`
lovelace (the activation reserve in the code is 8 ADA) does not fail:
in binary64 the check compares `9` with
`fl (fl (999999/1000000) + 8) ≈ 8.999999 < 9`, so it is false, no
insufficient-funds error is thrown and the transaction-build endpoint is
reached, contradicting the claim that this request must fail before the
build. -/
theorem c1_counterexample_spend_succeeds :
    (sendTo false 9000000 999999 0 "e30.e30" "pkh0" "user@example.com"
        "addr0" sampleProof).2 = none
    ∧ ((sendTo false 9000000 999999 0 "e30.e30" "pkh0" "user@example.com"
        "addr0" sampleProof).1.any isBuildCall) = true := by
  have hflB : fl (9000000:ℚ) = 9000000 :=
    fl_eq_intCast (-29) 4831838208000000 (by norm_num)
      (by rw [abs_of_nonneg (by norm_num : (0:ℚ) ≤ 9000000)]; norm_num)
      (by rw [abs_of_nonneg (by norm_num : (0:ℚ) ≤ 9000000)]; norm_num)
      (by push_cast; norm_num)
  have hdivB : (9000000:ℚ) / 1000000 = 9 := by norm_num
  have hfl9 : fl (9:ℚ) = 9 :=
    fl_eq_intCast (-49) 5066549580791808 (by norm_num)
      (by rw [abs_of_nonneg (by norm_num : (0:ℚ) ≤ 9)]; norm_num)
      (by rw [abs_of_nonneg (by norm_num : (0:ℚ) ≤ 9)]; norm_num)
      (by push_cast; norm_num)
  have hflA : fl (999999:ℚ) = 999999 :=
    fl_eq_intCast (-33) 8589926002065408 (by norm_num)
      (by rw [abs_of_nonneg (by norm_num : (0:ℚ) ≤ 999999)]; norm_num)
      (by rw [abs_of_nonneg (by norm_num : (0:ℚ) ≤ 999999)]; norm_num)
      (by push_cast; norm_num)
  have hfloor2 : ⌊(999999:ℚ) / 1000000 * (2:ℚ) ^ (-(-53:ℤ))⌋
      = 9007190247541737 := by
    rw [Int.floor_eq_iff]
    constructor <;> norm_num
  have hrnd2 : roundEven ((999999:ℚ) / 1000000 * (2:ℚ) ^ (-(-53:ℤ)))
      = 9007190247541737 :=
    roundEven_eq_of_lt hfloor2 (by norm_num)
  have hd2 : fl ((999999:ℚ) / 1000000) = 9007190247541737 * (2:ℚ) ^ (-53:ℤ) :=
    fl_eq_round (-53) 9007190247541737 (by norm_num)
      (by rw [abs_of_nonneg (by norm_num : (0:ℚ) ≤ 999999/1000000)]; norm_num)
      (by rw [abs_of_nonneg (by norm_num : (0:ℚ) ≤ 999999/1000000)]; norm_num)
      hrnd2
  have hsum : (9007190247541737:ℚ) * (2:ℚ) ^ (-53:ℤ) + 8
      = 81064784285469673 * (2:ℚ) ^ (-53:ℤ) := by
    norm_num
  have hfloor3 : ⌊(81064784285469673:ℚ) * (2:ℚ) ^ (-53:ℤ) * (2:ℚ) ^ (-(-49:ℤ))⌋
      = 5066549017841854 := by
    rw [Int.floor_eq_iff]
    constructor <;> norm_num
  have hrnd3 : roundEven ((81064784285469673:ℚ) * (2:ℚ) ^ (-53:ℤ)
        * (2:ℚ) ^ (-(-49:ℤ)))
      = 5066549017841855 := by
    rw [roundEven_eq_of_gt hfloor3 (by norm_num)]
    norm_num
  have hr : fl ((9007190247541737:ℚ) * (2:ℚ) ^ (-53:ℤ) + 8)
      = 5066549017841855 * (2:ℚ) ^ (-49:ℤ) := by
    rw [hsum]
    exact fl_eq_round (-49) 5066549017841855 (by positivity)
      (by rw [abs_of_nonneg (by positivity)]; norm_num)
      (by rw [abs_of_nonneg (by positivity)]; norm_num)
      hrnd3
  have hcond : ¬ (fl (fl (9000000:ℚ) / 1000000)
      < fl (fl (fl (999999:ℚ) / 1000000) + 8)) := by
    rw [hflB, hdivB, hfl9, hflA, hd2, hr]
    norm_num
  rw [sendTo]
  rw [if_neg (by simpa using hcond), if_neg (by simp)]
  exact ⟨rfl, rfl⟩

/-- C1 amended: for every fresh wallet whose balance `B` is between 0
and `2^48` lovelace (≈ 281 million ADA; for larger balances the
double-precision check can round the one-lovelace margin away), a spend
request of `B - reserveFresh + 1` lovelace (one unit more than the
balance can cover next to the fixed 8-ADA activation reserve) fails with
the insufficient-funds error immediately after the balance fetch, before
the backend transaction-build endpoints (`sendFunds` /
`activateAndSendFunds`) or the prover are invoked. -/
theorem c1_insufficient_funds_before_build (B : Int) (hB0 : 0 ≤ B)
    (hBhi : B ≤ 281474976710656) (arrival : Nat)
    (jwt pkh userId recipientAddr : String) (proof : ProofBytes) :
    sendTo false B (B - 8000000 + 1) arrival jwt pkh userId recipientAddr proof
      = ([SendCall.getBalanceCall], some insufficientAdaErr) := by
  have hBq0 : (0:ℚ) ≤ (B:ℚ) := by exact_mod_cast hB0
  have hBqhi : (B:ℚ) ≤ 281474976710656 := by exact_mod_cast hBhi
  have hcond : fl (fl ((B:ℚ)) / 1000000)
      < fl (fl (fl ((B:ℚ) - 8000000 + 1) / 1000000) + 8) := by
    have e1 := fl_err ((B:ℚ))
    rw [abs_of_nonneg hBq0] at e1
    obtain ⟨e1l, e1r⟩ := abs_le.mp e1
    have hb1nn : (0:ℚ) ≤ fl ((B:ℚ)) := by linarith
    have e2 := fl_err (fl ((B:ℚ)) / 1000000)
    rw [abs_of_nonneg (div_nonneg hb1nn (by norm_num))] at e2
    obtain ⟨e2l, e2r⟩ := abs_le.mp e2
    have haqabs : |(B:ℚ) - 8000000 + 1| ≤ 281474976710656 := by
      rw [abs_le]
      constructor <;> linarith
    have e3 := fl_err ((B:ℚ) - 8000000 + 1)
    have e3' : |fl ((B:ℚ) - 8000000 + 1) - ((B:ℚ) - 8000000 + 1)|
        ≤ 281474976710656 / 9007199254740992 :=
      le_trans e3 (by linarith)
    obtain ⟨e3l, e3r⟩ := abs_le.mp e3'
    have haq1abs : |fl ((B:ℚ) - 8000000 + 1)| ≤ 281474976710657 := by
      obtain ⟨hal, har⟩ := abs_le.mp haqabs
      rw [abs_le]
      constructor <;> linarith
    have e4 := fl_err (fl ((B:ℚ) - 8000000 + 1) / 1000000)
    rw [abs_div, (by norm_num : |(1000000:ℚ)| = 1000000)] at e4
    have e4' : |fl (fl ((B:ℚ) - 8000000 + 1) / 1000000)
          - fl ((B:ℚ) - 8000000 + 1) / 1000000|
        ≤ (281474976710657 / 1000000) / 9007199254740992 := by
      refine le_trans e4 ?_
      have h := haq1abs
      linarith
    obtain ⟨e4l, e4r⟩ := abs_le.mp e4'
    have hd2abs : |fl (fl ((B:ℚ) - 8000000 + 1) / 1000000) + 8| ≤ 281474986 := by
      obtain ⟨hal, har⟩ := abs_le.mp haq1abs
      rw [abs_le]
      constructor <;> linarith
    have e5 := fl_err (fl (fl ((B:ℚ) - 8000000 + 1) / 1000000) + 8)
    have e5' : |fl (fl (fl ((B:ℚ) - 8000000 + 1) / 1000000) + 8)
          - (fl (fl ((B:ℚ) - 8000000 + 1) / 1000000) + 8)|
        ≤ 281474986 / 9007199254740992 := by
      refine le_trans e5 ?_
      have h := hd2abs
      linarith
    obtain ⟨e5l, e5r⟩ := abs_le.mp e5'
    linarith
  unfold sendTo
  rw [if_pos (by simpa using hcond)]

/-- C1 witness: balance 9 ADA, request `B - reserveFresh + 1` =
1 000 001 lovelace. -/
theorem c1_witness :
    sendTo false 9000000 (9000000 - 8000000 + 1) 0 "e30.e30" "pkh0"
        "user@example.com" "addr0" sampleProof
      = ([SendCall.getBalanceCall], some insufficientAdaErr) :=
  c1_insufficient_funds_before_build 9000000 (by norm_num) (by norm_num) 0
    "e30.e30" "pkh0" "user@example.com" "addr0" sampleProof

/-- C6: a spend from a fresh wallet with sufficient funds (at least the
requested amount plus 9 ADA, with the balance within `2^48` lovelace so
the double-precision check provably passes) whose proof is not yet
available does not fail: the loop sleeps the fixed 5-second interval
exactly `arrival` times (blocking until the proof is available and no
longer) and then invokes `activateAndSendFunds` with the stripped
signature-less identity token, the public-key hash, the proof, and the
outputs. -/
theorem c6_fresh_spend_waits_for_proof (B amount : Int) (hA0 : 0 ≤ amount)
    (hmargin : amount + 9000000 ≤ B) (hBhi : B ≤ 281474976710656)
    (arrival : Nat) (jwt pkh userId recipientAddr : String)
    (proof : ProofBytes) :
    sendTo false B amount arrival jwt pkh userId recipientAddr proof
      = (SendCall.getBalanceCall ::
          (List.replicate arrival (SendCall.waitMs 5000)
            ++ [SendCall.activateAndSendFundsCall (strippedJwt jwt) pkh proof
                  [⟨recipientAddr, [("lovelace", ⟨amount⟩)]⟩],
                SendCall.submitTxCall]), none) := by
  have hAq0 : (0:ℚ) ≤ (amount:ℚ) := by exact_mod_cast hA0
  have hm : (amount:ℚ) + 9000000 ≤ (B:ℚ) := by exact_mod_cast hmargin
  have hBq0 : (0:ℚ) ≤ (B:ℚ) := by linarith
  have hBqhi : (B:ℚ) ≤ 281474976710656 := by exact_mod_cast hBhi
  have hAqhi : (amount:ℚ) ≤ 281474976710656 := by linarith
  have hcond : ¬ (fl (fl ((B:ℚ)) / 1000000)
      < fl (fl (fl ((amount:ℚ)) / 1000000) + 8)) := by
    have e1 := fl_err ((B:ℚ))
    rw [abs_of_nonneg hBq0] at e1
    obtain ⟨e1l, e1r⟩ := abs_le.mp e1
    have hb1nn : (0:ℚ) ≤ fl ((B:ℚ)) := by linarith
    have e2 := fl_err (fl ((B:ℚ)) / 1000000)
    rw [abs_of_nonneg (div_nonneg hb1nn (by norm_num))] at e2
    obtain ⟨e2l, e2r⟩ := abs_le.mp e2
    have e3 := fl_err ((amount:ℚ))
    rw [abs_of_nonneg hAq0] at e3
    obtain ⟨e3l, e3r⟩ := abs_le.mp e3
    have ha1nn : (0:ℚ) ≤ fl ((amount:ℚ)) := by linarith
    have e4 := fl_err (fl ((amount:ℚ)) / 1000000)
    rw [abs_of_nonneg (div_nonneg ha1nn (by norm_num))] at e4
    obtain ⟨e4l, e4r⟩ := abs_le.mp e4
    have hs_nn : (0:ℚ) ≤ fl (fl ((amount:ℚ)) / 1000000) + 8 := by linarith
    have e5 := fl_err (fl (fl ((amount:ℚ)) / 1000000) + 8)
    rw [abs_of_nonneg hs_nn] at e5
    obtain ⟨e5l, e5r⟩ := abs_le.mp e5
    intro hlt
    linarith
  unfold sendTo
  rw [if_neg (by simpa using hcond), if_neg (by simp), proofWait_replicate]

/-- C6 witness: balance 100 ADA, spend 1 ADA, proof arriving after three
5-second cycles. -/
theorem c6_witness :
    sendTo false 100000000 1000000 3 "e30.e30" "pkh0" "user@example.com"
        "addr0" sampleProof
      = (SendCall.getBalanceCall ::
          (List.replicate 3 (SendCall.waitMs 5000)
            ++ [SendCall.activateAndSendFundsCall (strippedJwt "e30.e30") "pkh0"
                  sampleProof [⟨"addr0", [("lovelace", ⟨1000000⟩)]⟩],
                SendCall.submitTxCall]), none) :=
  c6_fresh_spend_waits_for_proof 100000000 1000000 (by norm_num) (by norm_num)
    (by norm_num) 3 "e30.e30" "pkh0" "user@example.com" "addr0" sampleProof

/-! ## Session and Storage read paths
(src/Service/Session.ts lines 38-51; part_001 second revision,
`Storage.getMultiWalletStorage` / `getWallet`)

`Session.getSession` reads the stored string and calls `deserialize` on
it with NO try/catch: a value JSONbig cannot parse makes `deserialize`
throw and the exception escapes `getState`; only a parse result that is
JS-falsy (e.g. the string "null") reaches the re-initialisation
fallback.  `Storage.getMultiWalletStorage` wraps the same read in
try/catch and returns the empty default on a parse error, and
`Storage.getWallet` adds a second try/catch of its own.  The external
JSONbig parser is a parameter: `.error e` models a thrown parse
exception, `.ok none` a falsy parse result, `.ok (some v)` a truthy
one. -/

/-- The session object persisted by the `Session` collaborator. -/
structure SessionI where
  oauth_state : Option String
deriving DecidableEq, Repr

/-- The multi-wallet store persisted by the `Storage` collaborator. -/
structure MultiWalletStorage where
  wallets : List (String × WalletInitialiser)
deriving DecidableEq, Repr

/-- `Session.getSession`: `.error` = the JSONbig exception propagates to
the caller (there is no try/catch on this path). -/
def getSession (parse : String → Except String (Option SessionI))
    (stored : Option String) : Except String SessionI :=
  match stored with
  | some str =>
      match parse str with
      | .error e => .error e
      | .ok (some session) => .ok session
      | .ok none => .ok ⟨none⟩
  | none => .ok ⟨none⟩

/-- `Session.getState`: returns `session.oauth_state ?? null`, or
propagates the exception from `getSession`. -/
def getState (parse : String → Except String (Option SessionI))
    (stored : Option String) : Except String (Option String) :=
  (getSession parse stored).map (fun s => s.oauth_state)

/-- `Storage.getMultiWalletStorage`: the try/catch turns a parse
exception into the empty default store. -/
def getMultiWalletStorage (parse : String → Except String MultiWalletStorage)
    (stored : Option String) : MultiWalletStorage :=
  match stored with
  | some str =>
      match parse str with
      | .ok v => v
      | .error _ => ⟨[]⟩
  | none => ⟨[]⟩

/-- `Storage.getWallet`: total — both the inner and the outer try/catch
prevent any exception from escaping. -/
def getWallet (parse : String → Except String MultiWalletStorage)
    (stored : Option String) (addr : String) : Option WalletInitialiser :=
  (getMultiWalletStorage parse stored).wallets.lookup addr

/-- A parser behaviour of JSONbig on a non-deserializable stored value:
`JSONbig.parse` throws a syntax error. -/
def throwingParse {α : Type} : String → Except String α :=
  fun _ => .error "SyntaxError: Unexpected end of JSON input"

/-- C8 (code bug): on a corrupted, non-deserializable stored value the
`Session` read path raises instead of self-healing — `getState`
propagates the JSONbig exception, contradicting the claim (and the
code's own fallback comment), while `Storage.getWallet` on the same
corrupted value does self-heal to the empty default and returns `null`
without raising; the missing-value cases self-heal in both
collaborators. -/
theorem c8_session_raises_on_corrupt_value :
    getState throwingParse (some "not-json")
      = .error "SyntaxError: Unexpected end of JSON input"
    ∧ getWallet throwingParse (some "not-json") "addr0" = none
    ∧ getState (fun _ => .ok (some ⟨some "tok"⟩)) none = .ok none
    ∧ getWallet (fun _ => .ok ⟨[("addr0", ⟨"j", "k"⟩)]⟩) none "addr0" = none := by
  exact ⟨rfl, rfl, rfl, rfl⟩

end SmartWallet
